import Mathlib

/-!
# Verification of the session process orchestrator

Shallow embedding of the concurrency core of the repository: the Process
Registry (`activeProcesses` / `processCounter` in `src/handlers/sessions.go`),
the Session Ledger (`StateManager` in `src/unnamed/part_001`), and the Output
Hub (`SessionHub` in `src/handlers/websocket.go`), together with the Run
Coordinator paths of `handleWSChat` (guard, start bookkeeping, stdout
forwarding, exit-code interpretation, cleanup) and the interrupt handler of
`ChatWebSocket`.

Go maps are modelled as association lists with Go-map semantics: `mapInsert`
replaces the value when the key is present and appends otherwise, `mapErase`
removes all occurrences (Go `delete`), and `mapLookup` returns the first
binding.  States built by the embedded operations keep their keys unique.
-/

namespace Greyzone

/-- Lookup in a Go-map modelled as an association list (first binding wins). -/
def mapLookup {α β : Type} [DecidableEq α] : List (α × β) → α → Option β
  | [], _ => none
  | (k, v) :: rest, a => if k = a then some v else mapLookup rest a

/-- Go-map assignment `m[a] = b`: replace the binding if present, append otherwise. -/
def mapInsert {α β : Type} [DecidableEq α] : List (α × β) → α → β → List (α × β)
  | [], a, b => [(a, b)]
  | (k, v) :: rest, a, b => if k = a then (a, b) :: rest else (k, v) :: mapInsert rest a b

/-- Go-map `delete(m, a)`: removes every binding of the key (a no-op when absent). -/
def mapErase {α β : Type} [DecidableEq α] : List (α × β) → α → List (α × β)
  | [], _ => []
  | (k, v) :: rest, a => if k = a then mapErase rest a else (k, v) :: mapErase rest a

theorem mapLookup_mapInsert_self {α β : Type} [DecidableEq α]
    (l : List (α × β)) (a : α) (b : β) : mapLookup (mapInsert l a b) a = some b := by
  induction l with
  | nil => simp [mapInsert, mapLookup]
  | cons p rest ih =>
    obtain ⟨k, v⟩ := p
    by_cases h : k = a
    · simp [mapInsert, h, mapLookup]
    · simp [mapInsert, h, mapLookup, ih]

theorem mapLookup_mapInsert_ne {α β : Type} [DecidableEq α]
    (l : List (α × β)) (a a' : α) (b : β) (h : a ≠ a') :
    mapLookup (mapInsert l a b) a' = mapLookup l a' := by
  induction l with
  | nil => simp [mapInsert, mapLookup, h]
  | cons p rest ih =>
    obtain ⟨k, v⟩ := p
    by_cases hk : k = a
    · subst hk
      simp [mapInsert, mapLookup, h]
    · simp [mapInsert, hk, mapLookup, ih]

theorem mapLookup_mapErase_self {α β : Type} [DecidableEq α]
    (l : List (α × β)) (a : α) : mapLookup (mapErase l a) a = none := by
  induction l with
  | nil => rfl
  | cons p rest ih =>
    obtain ⟨k, v⟩ := p
    by_cases h : k = a
    · simp [mapErase, h, ih]
    · simp [mapErase, h, mapLookup, ih]

theorem mapLookup_mapErase_ne {α β : Type} [DecidableEq α]
    (l : List (α × β)) (a a' : α) (h : a ≠ a') :
    mapLookup (mapErase l a) a' = mapLookup l a' := by
  induction l with
  | nil => rfl
  | cons p rest ih =>
    obtain ⟨k, v⟩ := p
    by_cases hk : k = a
    · subst hk
      simp [mapErase, mapLookup, h, ih]
    · simp [mapErase, hk, mapLookup, ih]

theorem mapErase_mapErase {α β : Type} [DecidableEq α]
    (l : List (α × β)) (a : α) : mapErase (mapErase l a) a = mapErase l a := by
  induction l with
  | nil => rfl
  | cons p rest ih =>
    obtain ⟨k, v⟩ := p
    by_cases h : k = a
    · simp [mapErase, h, ih]
    · simp [mapErase, h, ih]

theorem mapInsert_mapInsert_self {α β : Type} [DecidableEq α]
    (l : List (α × β)) (a : α) (b b' : β) :
    mapInsert (mapInsert l a b) a b' = mapInsert l a b' := by
  induction l with
  | nil => simp [mapInsert]
  | cons p rest ih =>
    obtain ⟨k, v⟩ := p
    by_cases h : k = a
    · simp [mapInsert, h]
    · simp [mapInsert, h, ih]

theorem mem_of_mem_mapErase {α β : Type} [DecidableEq α]
    {l : List (α × β)} {a : α} {p : α × β} (h : p ∈ mapErase l a) :
    p ∈ l ∧ p.1 ≠ a := by
  induction l with
  | nil => cases h
  | cons q rest ih =>
    obtain ⟨k, v⟩ := q
    by_cases hk : k = a
    · simp only [mapErase, if_pos hk] at h
      exact ⟨List.mem_cons_of_mem _ (ih h).1, (ih h).2⟩
    · simp only [mapErase, if_neg hk] at h
      rcases List.mem_cons.mp h with h1 | h2
      · subst h1
        exact ⟨List.mem_cons_self _ _, hk⟩
      · exact ⟨List.mem_cons_of_mem _ (ih h2).1, (ih h2).2⟩

theorem mem_of_mapLookup_eq_some {α β : Type} [DecidableEq α]
    {l : List (α × β)} {a : α} {b : β} (h : mapLookup l a = some b) : (a, b) ∈ l := by
  induction l with
  | nil => cases h
  | cons p rest ih =>
    obtain ⟨k, v⟩ := p
    by_cases hk : k = a
    · subst hk
      simp [mapLookup] at h
      subst h
      exact List.mem_cons_self _ _
    · simp [mapLookup, hk] at h
      exact List.mem_cons_of_mem _ (ih h)

/-! ## Data model

`ProcessInfo` is `handlers.ProcessInfo` (src/handlers/sessions.go) without the
opaque `*exec.Cmd` handle; the kill syscall on that handle is recorded in the
`killedPids` trace of the server state instead.  `SessionState` is the ledger
record of src/unnamed/part_001. -/

/-- `ProcessInfo` from src/handlers/sessions.go (the `Cmd` handle is opaque;
its `Process.Kill` calls are traced in `ServerState.killedPids`). -/
structure ProcessInfo where
  sessionID : String
  workDir : String
  startTime : Int
  deriving Repr, DecidableEq

/-- `SessionState` from src/unnamed/part_001: the Session Ledger record. -/
structure SessionState where
  sessionID : String
  isLoading : Bool
  processID : Option Nat
  deriving Repr, DecidableEq

/-- Messages written to a websocket connection with `SendJSON`
(src/handlers/websocket.go); only the fields the claims need are kept. -/
inductive HubMsg where
  /-- `{"type":"data","data":line}` -/
  | data (line : String)
  /-- `{"type":"userPrompt","sessionId":...,"prompt":...}` -/
  | userPrompt (sessionId prompt : String)
  /-- `{"type":"processId","processId":n}` -/
  | processId (n : Nat)
  /-- `{"type":"done"}` -/
  | done
  /-- `{"type":"error","message":...}` for an unexpected exit code -/
  | errorExit (code : Int)
  /-- `{"type":"error","message":...}` for a non-ExitError wait failure -/
  | errorOther
  deriving Repr, DecidableEq

/-- `WSConnection` from src/handlers/websocket.go.  `send` is the buffered
channel `make(chan []byte, 256)` created by `newWSConnection`; the source never
enqueues into it — `SendJSON` writes directly to the socket, which is recorded
in `delivered` (the ordered sequence of `SendJSON` calls on this connection). -/
structure WSConn where
  send : List String
  delivered : List HubMsg
  deriving Repr, DecidableEq

/-- Capacity of `WSConnection.send`: `make(chan []byte, 256)` in
`newWSConnection` (src/handlers/websocket.go). -/
def sendCap : Nat := 256

/-- The shared mutable state of the orchestrator:
* `processCounter`, `activeProcesses`: the Process Registry
  (src/handlers/sessions.go);
* `sessions`: `StateManager.state.Sessions`, the Session Ledger
  (src/unnamed/part_001);
* `pendingPrompts`, `accumulatedContent`, `subscribers`: the `SessionHub`
  (src/handlers/websocket.go), with subscriber sets as lists of connection ids;
* `conns`: the websocket connections by id;
* `killedPids`: trace of `Process.Kill` invocations (an OS side effect). -/
structure ServerState where
  processCounter : Nat
  activeProcesses : List (Nat × ProcessInfo)
  sessions : List (String × SessionState)
  pendingPrompts : List (String × String)
  accumulatedContent : List (String × List String)
  subscribers : List (String × List Nat)
  conns : List (Nat × WSConn)
  killedPids : List Nat
  deriving Repr, DecidableEq

/-- The freshly initialised server: all maps empty, counter zero. -/
def emptyState : ServerState :=
  { processCounter := 0, activeProcesses := [], sessions := [], pendingPrompts := []
    accumulatedContent := [], subscribers := [], conns := [], killedPids := [] }

/-! ## Process Registry (src/handlers/sessions.go lines 1038-1064) -/

/-- `getNextProcessID`: increments `processCounter` and returns it. -/
def getNextProcessID (st : ServerState) : Nat × ServerState :=
  (st.processCounter + 1, { st with processCounter := st.processCounter + 1 })

/-- `registerProcess(id, info)`: `activeProcesses[id] = info`. -/
def registerProcess (st : ServerState) (id : Nat) (info : ProcessInfo) : ServerState :=
  { st with activeProcesses := mapInsert st.activeProcesses id info }

/-- `unregisterProcess(id)`: `delete(activeProcesses, id)`. -/
def unregisterProcess (st : ServerState) (id : Nat) : ServerState :=
  { st with activeProcesses := mapErase st.activeProcesses id }

/-! ## Session Ledger (`StateManager`, src/unnamed/part_001)

`go sm.broadcast()` pushes a state snapshot to SSE clients; it does not touch
the maps modelled here, so it is kept as the counting function
`runCleanupBroadcastCount` where a claim mentions it. -/

/-- `StateManager.setSessionLoading` (src/unnamed/part_001 lines 181-202): on a
non-empty id, create the record if absent (Go zero value: `IsLoading=false`,
`ProcessID=nil`), set `IsLoading`, and delete the record when it ends up not
loading with no process. -/
def setSessionLoading (st : ServerState) (sessionId : String) (loading : Bool) : ServerState :=
  if sessionId = "" then st
  else
    let s0 := (mapLookup st.sessions sessionId).getD
      { sessionID := sessionId, isLoading := false, processID := none }
    let s := { s0 with isLoading := loading }
    if loading = false ∧ s.processID = none then
      { st with sessions := mapErase st.sessions sessionId }
    else
      { st with sessions := mapInsert st.sessions sessionId s }

/-- `StateManager.setSessionProcessID` (src/unnamed/part_001 lines 205-226):
same shape as `setSessionLoading`, mutating `ProcessID`. -/
def setSessionProcessID (st : ServerState) (sessionId : String) (processID : Option Nat) :
    ServerState :=
  if sessionId = "" then st
  else
    let s0 := (mapLookup st.sessions sessionId).getD
      { sessionID := sessionId, isLoading := false, processID := none }
    let s := { s0 with processID := processID }
    if s.isLoading = false ∧ processID = none then
      { st with sessions := mapErase st.sessions sessionId }
    else
      { st with sessions := mapInsert st.sessions sessionId s }

/-- Membership test in a pid snapshot (`activeProcessSnapshot[pid]` on the Go
snapshot map). -/
def natMem (a : Nat) : List Nat → Bool
  | [] => false
  | b :: rest => if b = a then true else natMem a rest

/-- The pids of the Process Registry snapshot taken by `getState` and
`IsSessionLoading` before inspecting the ledger (registry lock first). -/
def registrySnapshot (st : ServerState) : List Nat :=
  st.activeProcesses.map Prod.fst

/-- The ledger traversal of `StateManager.getState` (src/unnamed/part_001
lines 122-142): a record whose `ProcessID` is absent from the registry snapshot
has `IsLoading`/`ProcessID` cleared and — being then not loading — is deleted;
every other record is kept unchanged. -/
def getStateSessions (live : List Nat) : List (String × SessionState) → List (String × SessionState)
  | [] => []
  | (sid, s) :: rest =>
    match s.processID with
    | some pid =>
      if natMem pid live then (sid, s) :: getStateSessions live rest
      else getStateSessions live rest
    | none => (sid, s) :: getStateSessions live rest

/-- `StateManager.getState` (src/unnamed/part_001 lines 112-167): snapshot the
registry, reconcile the ledger against it, and return (a copy of) the state.
The broadcast it may fire touches no map modelled here. -/
def getState (st : ServerState) : ServerState :=
  { st with sessions := getStateSessions (registrySnapshot st) st.sessions }

/-- `IsSessionLoading` (src/unnamed/part_001 lines 298-321): registry snapshot
first; a loading record whose owner pid is not in the snapshot is repaired via
`setSessionLoading(false)` + `setSessionProcessID(nil)` and reported idle. -/
def IsSessionLoading (st : ServerState) (sessionId : String) : Bool × ServerState :=
  let snapshot := registrySnapshot st
  match mapLookup st.sessions sessionId with
  | none => (false, st)
  | some session =>
    match session.processID with
    | some pid =>
      if session.isLoading = true ∧ natMem pid snapshot = false then
        (false, setSessionProcessID (setSessionLoading st sessionId false) sessionId none)
      else (session.isLoading, st)
    | none => (session.isLoading, st)

/-! ## Output Hub (`SessionHub`, src/handlers/websocket.go lines 30-121) -/

/-- `WSConnection.SendJSON` (src/handlers/websocket.go lines 159-163): a direct
synchronous write on the socket under the connection mutex — the `send` channel
is not involved.  Modelled as appending to the connection's `delivered` trace. -/
def sendJSONConn (st : ServerState) (c : Nat) (msg : HubMsg) : ServerState :=
  match mapLookup st.conns c with
  | none => st
  | some conn =>
    { st with conns := mapInsert st.conns c { conn with delivered := conn.delivered ++ [msg] } }

/-- The state effect of `SessionHub.Subscribe` (src/handlers/websocket.go lines
43-74): add the connection to the session's subscriber set (created on first
use).  The pending-prompt and backlog replays it spawns are `go` routines whose
delivery is modelled by `subscriberObservation` below. -/
def hubSubscribe (st : ServerState) (sessionId : String) (c : Nat) : ServerState :=
  let cur := (mapLookup st.subscribers sessionId).getD []
  { st with subscribers :=
      mapInsert st.subscribers sessionId (if natMem c cur then cur else cur ++ [c]) }

/-- `SessionHub.Broadcast` (src/handlers/websocket.go lines 87-94): copy the
subscriber set under the read lock, then `SendJSON` the message to each. -/
def hubBroadcast (st : ServerState) (sessionId : String) (msg : HubMsg) : ServerState :=
  ((mapLookup st.subscribers sessionId).getD []).foldl (fun s c => sendJSONConn s c msg) st

/-- `SessionHub.SetPendingPrompt` (lines 96-101). -/
def hubSetPendingPrompt (st : ServerState) (sessionId prompt : String) : ServerState :=
  { st with pendingPrompts := mapInsert st.pendingPrompts sessionId prompt }

/-- `SessionHub.ClearPendingPrompt` (lines 103-108). -/
def hubClearPendingPrompt (st : ServerState) (sessionId : String) : ServerState :=
  { st with pendingPrompts := mapErase st.pendingPrompts sessionId }

/-- `SessionHub.AppendContent` (lines 110-114):
`accumulatedContent[sessionID] = append(accumulatedContent[sessionID], data)` —
appending to the nil slice of an absent key creates the entry. -/
def hubAppendContent (st : ServerState) (sessionId data : String) : ServerState :=
  { st with accumulatedContent :=
      (mapInsert st.accumulatedContent sessionId
        ((mapLookup st.accumulatedContent sessionId).getD [] ++ [data])) }

/-- `SessionHub.ClearAccumulatedContent` (lines 116-121). -/
def hubClearAccumulated (st : ServerState) (sessionId : String) : ServerState :=
  { st with accumulatedContent := mapErase st.accumulatedContent sessionId }

/-- The spec's `publish(sessionId, chunk)` as the stdout-forwarding path of
`handleWSChat` performs it for a session-carrying run (src/handlers/websocket.go
lines 517-519): `AppendContent` then `Broadcast` of a `data` message. -/
def publishChunk (st : ServerState) (sessionId chunk : String) : ServerState :=
  hubBroadcast (hubAppendContent st sessionId chunk) sessionId (HubMsg.data chunk)

/-- One stdout line of the running process (src/handlers/websocket.go lines
512-522): broadcast through the hub when the run carries a session id,
otherwise `SendJSON` to the initiating connection only. -/
def forwardStdoutLine (st : ServerState) (sessionId : String) (initiator : Nat)
    (line : String) : ServerState :=
  if sessionId = "" then sendJSONConn st initiator (HubMsg.data line)
  else publishChunk st sessionId line

/-! ## Run Coordinator (`handleWSChat`, src/handlers/websocket.go) -/

/-- Outcome of the single-flight guard at the top of `handleWSChat`. -/
inductive GuardResult where
  | rejectedBusy
  | proceed
  deriving Repr, DecidableEq

/-- The single-flight guard (src/handlers/websocket.go lines 273-281):
`if req.SessionID != "" && IsSessionLoading(req.SessionID)` send the busy error
and return before anything is spawned; Go `&&` short-circuits, so an empty
session id never consults the ledger. -/
def handleWSChatGuard (st : ServerState) (sessionId : String) : GuardResult × ServerState :=
  if sessionId = "" then (GuardResult.proceed, st)
  else
    let r := IsSessionLoading st sessionId
    if r.1 then (GuardResult.rejectedBusy, r.2) else (GuardResult.proceed, r.2)

/-- The bookkeeping `handleWSChat` performs once the spawned process started
(src/handlers/websocket.go lines 412-459): take the next process id, register,
and — for a session-carrying run only — mark the ledger loading with that owner,
subscribe the initiating connection, set and broadcast the pending prompt; then
send the `processId` message to the initiator.  Returns the new process id. -/
def startRunBegin (st : ServerState) (sessionId workDir prompt : String) (now : Int)
    (initiator : Nat) : Nat × ServerState :=
  let r := getNextProcessID st
  let pid := r.1
  let st1 := registerProcess r.2 pid
    { sessionID := sessionId, workDir := workDir, startTime := now }
  let st2 :=
    if sessionId = "" then st1
    else
      hubSubscribe (setSessionProcessID (setSessionLoading st1 sessionId true)
        sessionId (some pid)) sessionId initiator
  let st3 :=
    if sessionId = "" ∨ prompt = "" then st2
    else
      hubBroadcast (hubSetPendingPrompt st2 sessionId prompt) sessionId
        (HubMsg.userPrompt sessionId prompt)
  (pid, sendJSONConn st3 initiator (HubMsg.processId pid))

/-- Result of `cmd.Wait()`: `exited code` covers both a nil error (code 0) and
an `*exec.ExitError` (code ≠ 0); `waitFailure` is any other error. -/
inductive WaitResult where
  | exited (code : Int)
  | waitFailure
  deriving Repr, DecidableEq

/-- The terminal event `handleWSChat` emits after `cmd.Wait()`
(src/handlers/websocket.go lines 550-587): exit code 0 (nil error) → `done`;
an `ExitError` with code 1, -1 (signal-terminated), 130 (SIGINT) or 137
(SIGKILL) → `done`; any other `ExitError` code → the exit-code error message;
a non-`ExitError` failure → the generic error message. -/
def terminalEvent : WaitResult → HubMsg
  | WaitResult.exited code =>
    if code = 0 then HubMsg.done
    else if code = 1 ∨ code = -1 ∨ code = 130 ∨ code = 137 then HubMsg.done
    else HubMsg.errorExit code
  | WaitResult.waitFailure => HubMsg.errorOther

/-- The deferred cleanup of `handleWSChat` (src/handlers/websocket.go lines
429-443): for a session-carrying run, set the ledger idle (`SetSessionLoading
false` then `SetSessionProcessID nil`), clear the hub's pending prompt and
accumulated backlog; then unregister the process. -/
def runCleanup (st : ServerState) (activeSessionID : String) (processID : Nat) : ServerState :=
  let st1 :=
    if activeSessionID = "" then st
    else
      hubClearAccumulated
        (hubClearPendingPrompt
          (setSessionProcessID (setSessionLoading st activeSessionID false)
            activeSessionID none)
          activeSessionID)
        activeSessionID
  unregisterProcess st1 processID

/-- How many `StateManager.broadcast` notifications the cleanup fires:
`SetSessionLoading` and `SetSessionProcessID` each end in `go sm.broadcast()`
unless the session id is empty (src/unnamed/part_001 lines 181-226). -/
def runCleanupBroadcastCount (activeSessionID : String) : Nat :=
  if activeSessionID = "" then 0 else 2

/-! ## Interrupt (src/handlers/websocket.go lines 235-267) -/

/-- Result reported by the interrupt paths. -/
inductive InterruptResult where
  | ok
  | notFound
  deriving Repr, DecidableEq

/-- The scan over `activeProcesses` for a process owning the session, as the
interrupt handlers perform under the registry read lock. -/
def findProcessBySession (procs : List (Nat × ProcessInfo)) (sessionId : String) :
    Option (Nat × ProcessInfo) :=
  procs.find? (fun p => p.2.sessionID = sessionId)

/-- The `interrupt` branch of `ChatWebSocket` (src/handlers/websocket.go lines
235-267): find the owning process under the read lock; if none, report that no
process was found; otherwise kill it outside the lock, `unregisterProcess`,
`SetSessionLoading(false)`, `SetSessionProcessID(nil)`. -/
def interruptWS (st : ServerState) (sessionId : String) : InterruptResult × ServerState :=
  match findProcessBySession st.activeProcesses sessionId with
  | none => (InterruptResult.notFound, st)
  | some (pid, _) =>
    let st1 := { st with killedPids := st.killedPids ++ [pid] }
    let st2 := unregisterProcess st1 pid
    let st3 := setSessionProcessID (setSessionLoading st2 sessionId false) sessionId none
    (InterruptResult.ok, st3)

/-- `InterruptChat` (src/handlers/sessions.go lines 1129-1166, the HTTP path):
find the owning process, 404 `notFound` when absent, otherwise kill and
`unregisterProcess` and return ok — the ledger is repaired on the next read. -/
def InterruptChat (st : ServerState) (sessionId : String) : InterruptResult × ServerState :=
  match findProcessBySession st.activeProcesses sessionId with
  | none => (InterruptResult.notFound, st)
  | some (pid, _) =>
    (InterruptResult.ok, unregisterProcess { st with killedPids := st.killedPids ++ [pid] } pid)

/-! ## Delivery semantics of a mid-run subscription

`SessionHub.Subscribe` (src/handlers/websocket.go lines 43-74) sends the
pending prompt with `go ws.SendJSON(...)` and the captured backlog with a
second `go func() { for chunk ... ws.SendJSON(...) }()`, while later
`Broadcast` calls `SendJSON` from the publishing goroutine.  Each `SendJSON`
is serialised by the connection mutex, so the sequence a subscriber observes is
an arbitrary scheduler interleaving of three internally-ordered streams: the
one-element prompt stream, the backlog replay, and the live broadcasts. -/

/-- `Interleave l₁ l₂ l`: `l` merges `l₁` and `l₂` preserving the internal
order of each. -/
inductive Interleave {α : Type} : List α → List α → List α → Prop where
  | nil : Interleave [] [] []
  | left {a : α} {l1 l2 l : List α} :
      Interleave l1 l2 l → Interleave (a :: l1) l2 (a :: l)
  | right {a : α} {l1 l2 l : List α} :
      Interleave l1 l2 l → Interleave l1 (a :: l2) (a :: l)

/-- Messages the prompt-replay goroutine of `Subscribe` sends: one `userPrompt`
when a non-empty pending prompt exists (lines 53-60), nothing otherwise. -/
def promptMsgs (sessionId : String) : Option String → List HubMsg
  | none => []
  | some p => if p = "" then [] else [HubMsg.userPrompt sessionId p]

/-- `subscriberObservation sid pp backlog live obs`: joining mid-run with
pending prompt `pp` and captured backlog `backlog`, while the publisher later
broadcasts `live`, the subscriber can observe exactly the interleavings `obs`
of the three streams. -/
def subscriberObservation (sessionId : String) (pp : Option String)
    (backlog : List String) (live : List HubMsg) (obs : List HubMsg) : Prop :=
  ∃ t, Interleave (backlog.map HubMsg.data) live t ∧
    Interleave (promptMsgs sessionId pp) t obs

/-! ## Helper lemmas -/

theorem natMem_eq_true_iff_mem (a : Nat) (l : List Nat) : natMem a l = true ↔ a ∈ l := by
  induction l with
  | nil => simp [natMem]
  | cons b rest ih =>
    by_cases h : b = a
    · simp [natMem, h]
    · simp [natMem, h, Ne.symm h, ih]

theorem natMem_fst_of_mapLookup_isSome {β : Type} (l : List (Nat × β)) (a : Nat)
    (h : (mapLookup l a).isSome = true) : natMem a (l.map Prod.fst) = true := by
  induction l with
  | nil => simp [mapLookup] at h
  | cons p rest ih =>
    obtain ⟨k, v⟩ := p
    by_cases hk : k = a
    · simp [natMem, hk]
    · simp [mapLookup, hk] at h
      simp [natMem, hk, ih h]

theorem mapLookup_isSome_of_natMem_fst {β : Type} (l : List (Nat × β)) (a : Nat)
    (h : natMem a (l.map Prod.fst) = true) : (mapLookup l a).isSome = true := by
  induction l with
  | nil => simp [natMem] at h
  | cons p rest ih =>
    obtain ⟨k, v⟩ := p
    by_cases hk : k = a
    · simp [mapLookup, hk]
    · simp [natMem, hk] at h
      simp [mapLookup, hk, ih h]

theorem natMem_fst_mapInsert {β : Type} (l : List (Nat × β)) (a : Nat) (b : β) :
    natMem a ((mapInsert l a b).map Prod.fst) = true :=
  natMem_fst_of_mapLookup_isSome _ _ (by rw [mapLookup_mapInsert_self]; rfl)

/-- `setSessionLoading` only rewrites the `sessions` map. -/
theorem setSessionLoading_shape (st : ServerState) (sid : String) (b : Bool) :
    ∃ ss, setSessionLoading st sid b = { st with sessions := ss } := by
  unfold setSessionLoading
  split
  · exact ⟨st.sessions, rfl⟩
  · dsimp only
    split
    · exact ⟨_, rfl⟩
    · exact ⟨_, rfl⟩

/-- `setSessionProcessID` only rewrites the `sessions` map. -/
theorem setSessionProcessID_shape (st : ServerState) (sid : String) (p : Option Nat) :
    ∃ ss, setSessionProcessID st sid p = { st with sessions := ss } := by
  unfold setSessionProcessID
  split
  · exact ⟨st.sessions, rfl⟩
  · dsimp only
    split
    · exact ⟨_, rfl⟩
    · exact ⟨_, rfl⟩

/-- `SendJSON` only rewrites the `conns` map. -/
theorem sendJSONConn_shape (st : ServerState) (c : Nat) (msg : HubMsg) :
    ∃ cs, sendJSONConn st c msg = { st with conns := cs } := by
  unfold sendJSONConn
  cases mapLookup st.conns c
  · exact ⟨st.conns, rfl⟩
  · exact ⟨_, rfl⟩

/-- A fold of `SendJSON` deliveries only rewrites the `conns` map. -/
theorem foldl_send_shape (ids : List Nat) (st : ServerState) (msg : HubMsg) :
    ∃ cs, ids.foldl (fun s c => sendJSONConn s c msg) st = { st with conns := cs } := by
  induction ids generalizing st with
  | nil => exact ⟨st.conns, rfl⟩
  | cons c rest ih =>
    obtain ⟨cs1, h1⟩ := sendJSONConn_shape st c msg
    obtain ⟨cs2, h2⟩ := ih (sendJSONConn st c msg)
    rw [List.foldl_cons, h2, h1]
    exact ⟨cs2, rfl⟩

/-- `Broadcast` only rewrites the `conns` map. -/
theorem hubBroadcast_shape (st : ServerState) (sid : String) (msg : HubMsg) :
    ∃ cs, hubBroadcast st sid msg = { st with conns := cs } :=
  foldl_send_shape _ st msg

/-- Setting a session idle (`SetSessionLoading false` then
`SetSessionProcessID nil`, the order used by every completion path) always
leaves the ledger with no record for the session. -/
theorem setIdle_lookup_none (st : ServerState) (sid : String) (h : sid ≠ "") :
    mapLookup (setSessionProcessID (setSessionLoading st sid false) sid none).sessions sid
      = none := by
  cases hlk : mapLookup st.sessions sid with
  | none =>
    simp [setSessionLoading, setSessionProcessID, h, hlk, mapLookup_mapErase_self,
      mapErase_mapErase]
  | some s =>
    cases hpid : s.processID with
    | none =>
      simp [setSessionLoading, setSessionProcessID, h, hlk, hpid, mapLookup_mapErase_self,
        mapErase_mapErase]
    | some q =>
      simp [setSessionLoading, setSessionProcessID, h, hlk, hpid, mapLookup_mapInsert_self,
        mapLookup_mapErase_self]

/-! ## Claim C6 — idempotent cleanup -/

/-- C6: calling `unregister` twice with the same process id, or
`setIdle` (`SetSessionLoading(sid, false)`) twice on the same session, produces
no error (both are total functions) and the state after the second call equals
the state after the first; removing an absent registry id and idling an
already-idle or absent session are no-ops of the same kind. -/
theorem cleanup_idempotent (st : ServerState) (pid : Nat) (sid : String) :
    unregisterProcess (unregisterProcess st pid) pid = unregisterProcess st pid ∧
    setSessionLoading (setSessionLoading st sid false) sid false
      = setSessionLoading st sid false := by
  constructor
  · simp [unregisterProcess, mapErase_mapErase]
  · by_cases hsid : sid = ""
    · simp [setSessionLoading, hsid]
    · cases hlk : mapLookup st.sessions sid with
      | none =>
        simp [setSessionLoading, hsid, hlk, mapLookup_mapErase_self, mapErase_mapErase]
      | some s =>
        cases hpid : s.processID with
        | none =>
          simp [setSessionLoading, hsid, hlk, hpid, mapLookup_mapErase_self, mapErase_mapErase]
        | some q =>
          simp [setSessionLoading, hsid, hlk, hpid, mapLookup_mapInsert_self,
            mapInsert_mapInsert_self]

/-! ## Claim C4 — exit-code interpretation -/

/-- C4: a conventional interrupted exit status (-1 generic signal-terminated,
130 SIGINT, 137 SIGKILL) yields the `done` terminal event, and an exit-code
`error` event arises only from a non-zero exit code outside the conventional
set the source accepts as normal (0, 1, -1, 130, 137). -/
theorem interrupted_exit_is_done :
    (∀ code : Int, code = -1 ∨ code = 130 ∨ code = 137 →
      terminalEvent (WaitResult.exited code) = HubMsg.done) ∧
    (∀ code ecode : Int, terminalEvent (WaitResult.exited code) = HubMsg.errorExit ecode →
      code ≠ 0 ∧ code ≠ 1 ∧ code ≠ -1 ∧ code ≠ 130 ∧ code ≠ 137) := by
  constructor
  · rintro code (rfl | rfl | rfl) <;> rfl
  · intro code ecode h
    by_cases h0 : code = 0
    · simp [terminalEvent, h0] at h
    · by_cases h1 : code = 1 ∨ code = -1 ∨ code = 130 ∨ code = 137
      · simp [terminalEvent, h0, h1] at h
      · push_neg at h1
        exact ⟨h0, h1.1, h1.2.1, h1.2.2.1, h1.2.2.2⟩

/-- Witness for C4 at concrete exit codes 130 (kept as `done`) and 7 (an
unexpected code, whose event is an exit-code error). -/
theorem interrupted_exit_is_done_witness :
    terminalEvent (WaitResult.exited 130) = HubMsg.done ∧
    ((7 : Int) ≠ 0 ∧ (7 : Int) ≠ 1 ∧ (7 : Int) ≠ -1 ∧ (7 : Int) ≠ 130 ∧ (7 : Int) ≠ 137) :=
  ⟨interrupted_exit_is_done.1 130 (Or.inr (Or.inl rfl)),
   interrupted_exit_is_done.2 7 7 (by decide)⟩

/-! ## Claim C8 — completion cleanup -/

/-- C8: the deferred cleanup of a session-carrying run leaves the ledger with
no (busy) record for the session, fires the ledger-change broadcasts, clears
the pending prompt and the accumulated backlog, and unregisters the process. -/
theorem run_cleanup_idles_and_clears (st : ServerState) (sid : String) (pid : Nat)
    (h : sid ≠ "") :
    mapLookup (runCleanup st sid pid).sessions sid = none ∧
    mapLookup (runCleanup st sid pid).pendingPrompts sid = none ∧
    mapLookup (runCleanup st sid pid).accumulatedContent sid = none ∧
    mapLookup (runCleanup st sid pid).activeProcesses pid = none ∧
    0 < runCleanupBroadcastCount sid := by
  have hidle := setIdle_lookup_none st sid h
  have hrc : runCleanup st sid pid =
      unregisterProcess (hubClearAccumulated (hubClearPendingPrompt
        (setSessionProcessID (setSessionLoading st sid false) sid none) sid) sid) pid := by
    unfold runCleanup
    rw [if_neg h]
  rw [hrc]
  refine ⟨hidle, ?_, ?_, ?_, ?_⟩
  · exact mapLookup_mapErase_self
      (setSessionProcessID (setSessionLoading st sid false) sid none).pendingPrompts sid
  · exact mapLookup_mapErase_self
      (hubClearPendingPrompt
        (setSessionProcessID (setSessionLoading st sid false) sid none) sid).accumulatedContent
      sid
  · exact mapLookup_mapErase_self _ pid
  · simp [runCleanupBroadcastCount, h]

/-- Witness for C8: cleaning up a concrete busy session removes its ledger
record, prompt, backlog and registry entry. -/
theorem run_cleanup_idles_and_clears_witness :
    mapLookup (runCleanup
      { emptyState with
          activeProcesses := [(1, { sessionID := "s1", workDir := "/tmp", startTime := 0 })]
          sessions := [("s1", { sessionID := "s1", isLoading := true, processID := some 1 })]
          pendingPrompts := [("s1", "hello")]
          accumulatedContent := [("s1", ["a"])] } "s1" 1).sessions "s1" = none :=
  (run_cleanup_idles_and_clears _ "s1" 1 (by decide)).1

/-! ## Claim C5 — interrupt -/

theorem setSessionLoading_activeProcesses (st : ServerState) (sid : String) (b : Bool) :
    (setSessionLoading st sid b).activeProcesses = st.activeProcesses := by
  obtain ⟨ss, h⟩ := setSessionLoading_shape st sid b
  rw [h]

theorem setSessionProcessID_activeProcesses (st : ServerState) (sid : String) (p : Option Nat) :
    (setSessionProcessID st sid p).activeProcesses = st.activeProcesses := by
  obtain ⟨ss, h⟩ := setSessionProcessID_shape st sid p
  rw [h]

theorem setSessionLoading_killedPids (st : ServerState) (sid : String) (b : Bool) :
    (setSessionLoading st sid b).killedPids = st.killedPids := by
  obtain ⟨ss, h⟩ := setSessionLoading_shape st sid b
  rw [h]

theorem setSessionProcessID_killedPids (st : ServerState) (sid : String) (p : Option Nat) :
    (setSessionProcessID st sid p).killedPids = st.killedPids := by
  obtain ⟨ss, h⟩ := setSessionProcessID_shape st sid p
  rw [h]

/-- No registered process owns the session, so the interrupt scan finds none. -/
theorem findProcessBySession_eq_none (procs : List (Nat × ProcessInfo)) (sid : String)
    (h : ∀ q i, (q, i) ∈ procs → i.sessionID ≠ sid) :
    findProcessBySession procs sid = none := by
  induction procs with
  | nil => rfl
  | cons pr rest ih =>
    obtain ⟨q, i⟩ := pr
    have hq : i.sessionID ≠ sid := h q i (List.mem_cons_self _ _)
    unfold findProcessBySession at ih ⊢
    rw [List.find?_cons_of_neg _ (by simp [hq]), ih]
    intro q2 i2 hm
    exact h q2 i2 (List.mem_cons_of_mem _ hm)

/-- Interrupt on a session with no registered owning process reports notFound
and changes nothing. -/
theorem interruptWS_notFound (st : ServerState) (sid : String)
    (h : findProcessBySession st.activeProcesses sid = none) :
    interruptWS st sid = (InterruptResult.notFound, st) := by
  unfold interruptWS
  rw [h]

/-- C5: interrupting a session with a registered owning process (assumed
unique, as single-flight provides) kills it, unregisters it, reports ok, and
leaves the session idle in the ledger (its record removed); a second interrupt
after the first completed finds no process and reports notFound. -/
theorem interrupt_kills_unregisters_idles (st : ServerState) (sid : String) (pid : Nat)
    (info : ProcessInfo) (hsid : sid ≠ "")
    (hfind : findProcessBySession st.activeProcesses sid = some (pid, info))
    (huniq : ∀ q i, (q, i) ∈ st.activeProcesses → i.sessionID = sid → q = pid) :
    (interruptWS st sid).1 = InterruptResult.ok ∧
    pid ∈ (interruptWS st sid).2.killedPids ∧
    mapLookup (interruptWS st sid).2.activeProcesses pid = none ∧
    mapLookup (interruptWS st sid).2.sessions sid = none ∧
    (interruptWS (interruptWS st sid).2 sid).1 = InterruptResult.notFound := by
  have hint : interruptWS st sid = (InterruptResult.ok,
      setSessionProcessID (setSessionLoading
        (unregisterProcess { st with killedPids := st.killedPids ++ [pid] } pid) sid false)
        sid none) := by
    unfold interruptWS
    rw [hfind]
  have hap : (interruptWS st sid).2.activeProcesses = mapErase st.activeProcesses pid := by
    rw [hint, setSessionProcessID_activeProcesses, setSessionLoading_activeProcesses]
    rfl
  have hnone : findProcessBySession (mapErase st.activeProcesses pid) sid = none := by
    apply findProcessBySession_eq_none
    intro q i hm heq
    obtain ⟨hmem, hne⟩ := mem_of_mem_mapErase hm
    exact hne (huniq q i hmem heq)
  refine ⟨by rw [hint], ?_, ?_, ?_, ?_⟩
  · rw [hint, setSessionProcessID_killedPids, setSessionLoading_killedPids]
    simp [unregisterProcess]
  · rw [hap]
    exact mapLookup_mapErase_self _ _
  · rw [hint]
    exact setIdle_lookup_none _ sid hsid
  · rw [interruptWS_notFound _ sid (by rw [hap]; exact hnone)]

/-- Witness for C5: a concrete busy session with its unique owning process. -/
theorem interrupt_kills_unregisters_idles_witness :
    (interruptWS
      { emptyState with
          activeProcesses := [(1, { sessionID := "s1", workDir := "/tmp", startTime := 0 })]
          sessions := [("s1", { sessionID := "s1", isLoading := true, processID := some 1 })] }
      "s1").1 = InterruptResult.ok :=
  (interrupt_kills_unregisters_idles _ "s1" 1
    { sessionID := "s1", workDir := "/tmp", startTime := 0 }
    (by decide) (by decide)
    (by
      intro q i hm heq
      simp only [List.mem_singleton, Prod.mk.injEq] at hm
      exact hm.1)).1

/-! ## Claim C1 — single-flight busy guard -/

theorem sendJSONConn_sessions (st : ServerState) (c : Nat) (msg : HubMsg) :
    (sendJSONConn st c msg).sessions = st.sessions := by
  obtain ⟨cs, h⟩ := sendJSONConn_shape st c msg
  rw [h]

theorem sendJSONConn_activeProcesses (st : ServerState) (c : Nat) (msg : HubMsg) :
    (sendJSONConn st c msg).activeProcesses = st.activeProcesses := by
  obtain ⟨cs, h⟩ := sendJSONConn_shape st c msg
  rw [h]

theorem sendJSONConn_processCounter (st : ServerState) (c : Nat) (msg : HubMsg) :
    (sendJSONConn st c msg).processCounter = st.processCounter := by
  obtain ⟨cs, h⟩ := sendJSONConn_shape st c msg
  rw [h]

theorem hubBroadcast_sessions (st : ServerState) (sid : String) (msg : HubMsg) :
    (hubBroadcast st sid msg).sessions = st.sessions := by
  obtain ⟨cs, h⟩ := hubBroadcast_shape st sid msg
  rw [h]

theorem hubBroadcast_activeProcesses (st : ServerState) (sid : String) (msg : HubMsg) :
    (hubBroadcast st sid msg).activeProcesses = st.activeProcesses := by
  obtain ⟨cs, h⟩ := hubBroadcast_shape st sid msg
  rw [h]

/-- When `IsSessionLoading` reports busy it has not repaired anything: the
state it hands back is the input state. -/
theorem IsSessionLoading_true_fix (st : ServerState) (sid : String)
    (h : (IsSessionLoading st sid).1 = true) : (IsSessionLoading st sid).2 = st := by
  unfold IsSessionLoading at h ⊢
  cases hlk : mapLookup st.sessions sid with
  | none => simp [hlk] at h
  | some s =>
    cases hpid : s.processID with
    | none => simp [hlk, hpid]
    | some q =>
      simp only [hlk, hpid] at h ⊢
      by_cases hc : s.isLoading = true ∧ natMem q (registrySnapshot st) = false
      · rw [if_pos hc] at h
        simp at h
      · rw [if_neg hc]

/-- A ledger record that is loading with an owner live in the registry makes
`IsSessionLoading` report busy. -/
theorem IsSessionLoading_busy_of (st : ServerState) (sid : String) (s : SessionState)
    (pid : Nat) (hlk : mapLookup st.sessions sid = some s) (hload : s.isLoading = true)
    (hpid : s.processID = some pid)
    (hlive : natMem pid (registrySnapshot st) = true) :
    (IsSessionLoading st sid).1 = true := by
  unfold IsSessionLoading
  simp only [hlk, hpid]
  rw [if_neg (by simp [hlive])]
  exact hload

/-- Marking a session busy (`SetSessionLoading true` then
`SetSessionProcessID (some pid)`, the order `handleWSChat` uses) stores a
loading record owned by `pid`. -/
theorem setBusy_lookup (st : ServerState) (sid : String) (pid : Nat) (hsid : sid ≠ "") :
    ∃ nm, mapLookup (setSessionProcessID (setSessionLoading st sid true) sid
        (some pid)).sessions sid
      = some { sessionID := nm, isLoading := true, processID := some pid } := by
  cases hlk : mapLookup st.sessions sid with
  | none =>
    exact ⟨sid, by
      simp [setSessionLoading, setSessionProcessID, hsid, hlk, mapLookup_mapInsert_self]⟩
  | some s =>
    exact ⟨s.sessionID, by
      simp [setSessionLoading, setSessionProcessID, hsid, hlk, mapLookup_mapInsert_self]⟩

/-- The run-start bookkeeping: the fresh process id, the registry entry it
creates, and (for a session-carrying run) the busy ledger record it stores. -/
theorem startRunBegin_state (st : ServerState) (sid wd p : String) (now : Int) (init : Nat)
    (hsid : sid ≠ "") :
    (startRunBegin st sid wd p now init).1 = st.processCounter + 1 ∧
    (startRunBegin st sid wd p now init).2.activeProcesses
      = mapInsert st.activeProcesses (st.processCounter + 1)
          { sessionID := sid, workDir := wd, startTime := now } ∧
    (∃ s, mapLookup (startRunBegin st sid wd p now init).2.sessions sid = some s ∧
      s.isLoading = true ∧ s.processID = some (st.processCounter + 1)) := by
  unfold startRunBegin getNextProcessID
  dsimp only
  rw [if_neg hsid]
  obtain ⟨nm, hbusy⟩ := setBusy_lookup
    (registerProcess { st with processCounter := st.processCounter + 1 }
      (st.processCounter + 1) { sessionID := sid, workDir := wd, startTime := now })
    sid (st.processCounter + 1) hsid
  by_cases hp : p = ""
  · rw [if_pos (Or.inr hp)]
    refine ⟨rfl, ?_, ?_⟩
    · rw [sendJSONConn_activeProcesses]
      show (setSessionProcessID (setSessionLoading _ sid true) sid _).activeProcesses = _
      rw [setSessionProcessID_activeProcesses, setSessionLoading_activeProcesses]
      rfl
    · refine ⟨SessionState.mk nm true (some (st.processCounter + 1)), ?_, rfl, rfl⟩
      rw [sendJSONConn_sessions]
      exact hbusy
  · rw [if_neg (by simp [hsid, hp])]
    refine ⟨rfl, ?_, ?_⟩
    · rw [sendJSONConn_activeProcesses, hubBroadcast_activeProcesses]
      show (setSessionProcessID (setSessionLoading _ sid true) sid _).activeProcesses = _
      rw [setSessionProcessID_activeProcesses, setSessionLoading_activeProcesses]
      rfl
    · refine ⟨SessionState.mk nm true (some (st.processCounter + 1)), ?_, rfl, rfl⟩
      rw [sendJSONConn_sessions, hubBroadcast_sessions]
      exact hbusy

/-- C1: with a non-empty session id, if the ledger reports the session busy the
run request is rejected immediately with the busy signal and the state is left
untouched (nothing is spawned or registered); in particular a second run
request for the session issued right after a first one began is rejected. -/
theorem busy_session_rejected (st : ServerState) (sid : String) (hsid : sid ≠ "") :
    ((IsSessionLoading st sid).1 = true →
      handleWSChatGuard st sid = (GuardResult.rejectedBusy, st)) ∧
    ∀ wd p now init,
      (handleWSChatGuard (startRunBegin st sid wd p now init).2 sid).1
        = GuardResult.rejectedBusy := by
  constructor
  · intro h
    unfold handleWSChatGuard
    rw [if_neg hsid]
    dsimp only
    rw [if_pos h, IsSessionLoading_true_fix st sid h]
  · intro wd p now init
    obtain ⟨hpid, hap, s, hlk, hload, hspid⟩ := startRunBegin_state st sid wd p now init hsid
    have hlive : natMem (st.processCounter + 1)
        (registrySnapshot (startRunBegin st sid wd p now init).2) = true := by
      unfold registrySnapshot
      rw [hap]
      exact natMem_fst_mapInsert _ _ _
    have hbusy := IsSessionLoading_busy_of _ sid s _ hlk hload hspid hlive
    unfold handleWSChatGuard
    rw [if_neg hsid]
    dsimp only
    rw [if_pos hbusy]

/-- Witness for C1: a concrete busy session (owner live in the registry) whose
second run request is rejected as busy. -/
theorem busy_session_rejected_witness :
    handleWSChatGuard
      { emptyState with
          activeProcesses := [(1, { sessionID := "s1", workDir := "/tmp", startTime := 0 })]
          sessions := [("s1", { sessionID := "s1", isLoading := true, processID := some 1 })] }
      "s1"
    = (GuardResult.rejectedBusy,
      { emptyState with
          activeProcesses := [(1, { sessionID := "s1", workDir := "/tmp", startTime := 0 })]
          sessions := [("s1", { sessionID := "s1", isLoading := true, processID := some 1 })] }) :=
  (busy_session_rejected _ "s1" (by decide)).1 (by decide)

/-! ## Claim C10 — runs without a session id -/

theorem sendJSONConn_pendingPrompts (st : ServerState) (c : Nat) (msg : HubMsg) :
    (sendJSONConn st c msg).pendingPrompts = st.pendingPrompts := by
  obtain ⟨cs, h⟩ := sendJSONConn_shape st c msg
  rw [h]

theorem sendJSONConn_accumulatedContent (st : ServerState) (c : Nat) (msg : HubMsg) :
    (sendJSONConn st c msg).accumulatedContent = st.accumulatedContent := by
  obtain ⟨cs, h⟩ := sendJSONConn_shape st c msg
  rw [h]

theorem sendJSONConn_subscribers (st : ServerState) (c : Nat) (msg : HubMsg) :
    (sendJSONConn st c msg).subscribers = st.subscribers := by
  obtain ⟨cs, h⟩ := sendJSONConn_shape st c msg
  rw [h]

/-- A delivered `SendJSON` appends to the target connection's trace. -/
theorem sendJSONConn_lookup_self (st : ServerState) (c : Nat) (msg : HubMsg) (conn : WSConn)
    (h : mapLookup st.conns c = some conn) :
    mapLookup (sendJSONConn st c msg).conns c
      = some { conn with delivered := conn.delivered ++ [msg] } := by
  unfold sendJSONConn
  rw [h]
  exact mapLookup_mapInsert_self _ _ _

/-- `SendJSON` to one connection leaves every other connection untouched. -/
theorem sendJSONConn_lookup_ne (st : ServerState) (c : Nat) (msg : HubMsg) (d : Nat)
    (h : c ≠ d) :
    mapLookup (sendJSONConn st c msg).conns d = mapLookup st.conns d := by
  unfold sendJSONConn
  cases hlk : mapLookup st.conns c
  · rfl
  · exact mapLookup_mapInsert_ne _ _ _ _ h

/-- C10: a run request with an empty session id passes the guard unconditionally
(it is never rejected busy), its start bookkeeping touches neither the ledger
nor any hub map — it only registers a fresh process id, and a second start gets
a distinct fresh id — and its stdout lines go only to the initiating
connection. -/
theorem empty_session_run (st : ServerState) (wd p : String) (now : Int) (init : Nat)
    (line : String) :
    handleWSChatGuard st "" = (GuardResult.proceed, st) ∧
    (startRunBegin st "" wd p now init).1 = st.processCounter + 1 ∧
    (startRunBegin st "" wd p now init).2.sessions = st.sessions ∧
    (startRunBegin st "" wd p now init).2.pendingPrompts = st.pendingPrompts ∧
    (startRunBegin st "" wd p now init).2.accumulatedContent = st.accumulatedContent ∧
    (startRunBegin st "" wd p now init).2.subscribers = st.subscribers ∧
    mapLookup (startRunBegin st "" wd p now init).2.activeProcesses (st.processCounter + 1)
      = some { sessionID := "", workDir := wd, startTime := now } ∧
    (startRunBegin (startRunBegin st "" wd p now init).2 "" wd p now init).1
      = st.processCounter + 2 ∧
    (forwardStdoutLine st "" init line).accumulatedContent = st.accumulatedContent ∧
    (forwardStdoutLine st "" init line).subscribers = st.subscribers ∧
    (∀ conn, mapLookup st.conns init = some conn →
      mapLookup (forwardStdoutLine st "" init line).conns init
        = some { conn with delivered := conn.delivered ++ [HubMsg.data line] }) ∧
    (∀ d conn, d ≠ init → mapLookup st.conns d = some conn →
      mapLookup (forwardStdoutLine st "" init line).conns d = some conn) := by
  have hred : ∀ st0 : ServerState, startRunBegin st0 "" wd p now init
      = (st0.processCounter + 1,
        sendJSONConn (registerProcess { st0 with processCounter := st0.processCounter + 1 }
          (st0.processCounter + 1) { sessionID := "", workDir := wd, startTime := now })
          init (HubMsg.processId (st0.processCounter + 1))) := by
    intro st0
    unfold startRunBegin getNextProcessID
    simp
  have hfwd : forwardStdoutLine st "" init line = sendJSONConn st init (HubMsg.data line) := by
    unfold forwardStdoutLine
    simp
  refine ⟨rfl, ?_, ?_, ?_, ?_, ?_, ?_, ?_, ?_, ?_, ?_, ?_⟩
  · rw [hred st]
  · rw [hred st]
    dsimp only
    rw [sendJSONConn_sessions]
    rfl
  · rw [hred st]
    dsimp only
    rw [sendJSONConn_pendingPrompts]
    rfl
  · rw [hred st]
    dsimp only
    rw [sendJSONConn_accumulatedContent]
    rfl
  · rw [hred st]
    dsimp only
    rw [sendJSONConn_subscribers]
    rfl
  · rw [hred st]
    dsimp only
    rw [sendJSONConn_activeProcesses]
    exact mapLookup_mapInsert_self _ _ _
  · rw [hred (startRunBegin st "" wd p now init).2]
    dsimp only
    rw [hred st]
    dsimp only
    rw [sendJSONConn_processCounter]
    rfl
  · rw [hfwd, sendJSONConn_accumulatedContent]
  · rw [hfwd, sendJSONConn_subscribers]
  · intro conn hconn
    rw [hfwd]
    exact sendJSONConn_lookup_self st init (HubMsg.data line) conn hconn
  · intro d conn hd hconn
    rw [hfwd, sendJSONConn_lookup_ne st init (HubMsg.data line) d (Ne.symm hd)]
    exact hconn

/-- Witness for C10: with one foreign connection present, an empty-session-id
line delivery leaves that connection untouched. -/
theorem empty_session_run_witness :
    mapLookup (forwardStdoutLine
      { emptyState with conns := [(1, { send := [], delivered := [] }),
          (2, { send := [], delivered := [] })] } "" 1 "out").conns 2
      = some { send := [], delivered := [] } :=
  (empty_session_run
    { emptyState with conns := [(1, { send := [], delivered := [] }),
        (2, { send := [], delivered := [] })] } "/tmp" "hi" 0 1 "out").2.2.2.2.2.2.2.2.2.2.2
    2 { send := [], delivered := [] } (by decide) (by decide)

/-! ## Claim C2 — reconciliation invariant -/

/-- Entries surviving the reconcile traversal come from the input ledger and,
when they record an owner pid, that pid is in the registry snapshot. -/
theorem mem_getStateSessions (live : List Nat) (l : List (String × SessionState))
    (sid : String) (s : SessionState) (h : (sid, s) ∈ getStateSessions live l) :
    (sid, s) ∈ l ∧ ∀ pid, s.processID = some pid → natMem pid live = true := by
  induction l with
  | nil => cases h
  | cons p rest ih =>
    obtain ⟨k, v⟩ := p
    cases hpid : v.processID with
    | none =>
      simp only [getStateSessions, hpid] at h
      rcases List.mem_cons.mp h with h1 | h2
      · rw [h1]
        refine ⟨List.mem_cons_self _ _, fun pid hc => ?_⟩
        rw [show s = v from congrArg Prod.snd h1] at hc
        rw [hpid] at hc
        cases hc
      · exact ⟨List.mem_cons_of_mem _ (ih h2).1, (ih h2).2⟩
    | some q =>
      by_cases hq : natMem q live = true
      · simp only [getStateSessions, hpid, if_pos hq] at h
        rcases List.mem_cons.mp h with h1 | h2
        · rw [h1]
          refine ⟨List.mem_cons_self _ _, fun pid hc => ?_⟩
          rw [show s = v from congrArg Prod.snd h1, hpid] at hc
          injection hc with hc
          rw [hc] at hq
          exact hq
        · exact ⟨List.mem_cons_of_mem _ (ih h2).1, (ih h2).2⟩
      · simp only [getStateSessions, hpid, if_neg hq] at h
        exact ⟨List.mem_cons_of_mem _ (ih h).1, (ih h).2⟩

/-- A key absent from the input ledger is absent from the reconciled ledger. -/
theorem getStateSessions_lookup_absent (live : List Nat)
    (l : List (String × SessionState)) (sid : String)
    (h : sid ∉ l.map Prod.fst) :
    mapLookup (getStateSessions live l) sid = none := by
  induction l with
  | nil => rfl
  | cons p rest ih =>
    obtain ⟨k, v⟩ := p
    simp only [List.map_cons, List.mem_cons] at h
    push_neg at h
    obtain ⟨hk, hrest⟩ := h
    cases hpid : v.processID with
    | none =>
      simp only [getStateSessions, hpid, mapLookup, if_neg (Ne.symm hk)]
      exact ih hrest
    | some q =>
      by_cases hq : natMem q live = true
      · simp only [getStateSessions, hpid, if_pos hq, mapLookup, if_neg (Ne.symm hk)]
        exact ih hrest
      · simp only [getStateSessions, hpid, if_neg hq]
        exact ih hrest

/-- A busy record whose owner pid is not in the registry snapshot is deleted by
the reconcile traversal (under unique ledger keys). -/
theorem getStateSessions_lookup_none (live : List Nat) (l : List (String × SessionState))
    (sid : String) (s : SessionState) (pid : Nat)
    (hnd : (l.map Prod.fst).Nodup)
    (hlk : mapLookup l sid = some s) (hpid : s.processID = some pid)
    (hdead : natMem pid live = false) :
    mapLookup (getStateSessions live l) sid = none := by
  induction l with
  | nil => cases hlk
  | cons p rest ih =>
    obtain ⟨k, v⟩ := p
    simp only [List.map_cons, List.nodup_cons] at hnd
    obtain ⟨hknotin, hndrest⟩ := hnd
    by_cases hk : k = sid
    · subst hk
      simp only [mapLookup, if_pos rfl] at hlk
      injection hlk with hvs
      subst hvs
      simp only [getStateSessions, hpid, hdead, Bool.false_eq_true, if_false]
      exact getStateSessions_lookup_absent live rest k hknotin
    · simp only [mapLookup, if_neg hk] at hlk
      have hrec := ih hndrest hlk
      cases hvpid : v.processID with
      | none =>
        simp only [getStateSessions, hvpid, mapLookup, if_neg hk]
        exact hrec
      | some q =>
        by_cases hq : natMem q live = true
        · simp only [getStateSessions, hvpid, if_pos hq, mapLookup, if_neg hk]
          exact hrec
        · simp only [getStateSessions, hvpid, if_neg hq]
          exact hrec

/-- The claim's reconciliation invariant, formalised from the spec's words for
comparison with the source's `getState`: after the reconcile pass performed on
a state read, every loading ledger record holds an owner pid that is present
and live in the Process Registry. -/
def claimBusyOwnersLiveAfterReconcile : Prop :=
  ∀ (st : ServerState) (sid : String) (s : SessionState),
    mapLookup (getState st).sessions sid = some s → s.isLoading = true →
    ∃ pid, s.processID = some pid ∧
      (mapLookup (getState st).activeProcesses pid).isSome = true

/-- Counterexample to C2 as stated: a ledger record that is loading but owns no
process id (the state `SetSessionLoading(s1, true)` alone produces, before
`SetSessionProcessID` runs) passes through the reconcile pass untouched, still
busy with no owner. -/
theorem reconcile_owner_cex : ¬ claimBusyOwnersLiveAfterReconcile := by
  intro h
  obtain ⟨pid, hpid, _⟩ := h (setSessionLoading emptyState "s1" true) "s1"
    (SessionState.mk "s1" true none) (by decide) rfl
  exact Option.noConfusion hpid

/-- C2 (amended): after the reconcile pass of a state read, every ledger record
that holds an owner pid has that pid live in the Process Registry, and a record
whose owner pid is dead (absent from the registry) is cleared to idle and
deleted by the pass itself, with no call to the ledger mutators; a loading
record with no owner pid recorded is however left untouched. -/
theorem reconcile_repairs_dead_owned (st : ServerState)
    (hnd : (st.sessions.map Prod.fst).Nodup) :
    (∀ sid s pid, mapLookup (getState st).sessions sid = some s →
      s.processID = some pid →
      (mapLookup (getState st).activeProcesses pid).isSome = true) ∧
    (∀ sid s pid, mapLookup st.sessions sid = some s → s.processID = some pid →
      mapLookup st.activeProcesses pid = none →
      mapLookup (getState st).sessions sid = none) := by
  constructor
  · intro sid s pid hlk hpid
    have hmem := mem_of_mapLookup_eq_some hlk
    have h2 := mem_getStateSessions (registrySnapshot st) st.sessions sid s hmem
    exact mapLookup_isSome_of_natMem_fst st.activeProcesses pid (h2.2 pid hpid)
  · intro sid s pid hlk hpid hdead
    apply getStateSessions_lookup_none (registrySnapshot st) st.sessions sid s pid hnd hlk hpid
    cases hnm : natMem pid (st.activeProcesses.map Prod.fst)
    · exact hnm
    · have hs := mapLookup_isSome_of_natMem_fst st.activeProcesses pid hnm
      rw [hdead] at hs
      simp at hs

/-- Witness for C2 (amended): a concrete busy record owned by a dead pid is
gone after the reconcile pass. -/
theorem reconcile_repairs_dead_owned_witness :
    mapLookup (getState
      { emptyState with
          sessions := [("s1", SessionState.mk "s1" true (some 5))] }).sessions "s1"
      = none :=
  (reconcile_repairs_dead_owned
    { emptyState with sessions := [("s1", SessionState.mk "s1" true (some 5))] }
    (by decide)).2 "s1" (SessionState.mk "s1" true (some 5)) 5 (by decide) rfl rfl

/-! ## Claim C9 — publish with no SessionStream -/

/-- The claim's no-op property, formalised from the spec's words for comparison
with the source's `AppendContent`/`Broadcast`: publishing a chunk for a session
with no stream state leaves the Output Hub's state unchanged. -/
def claimPublishNoStreamNoop : Prop :=
  ∀ (st : ServerState) (sid chunk : String),
    mapLookup st.pendingPrompts sid = none →
    mapLookup st.accumulatedContent sid = none →
    mapLookup st.subscribers sid = none →
    publishChunk st sid chunk = st

/-- Counterexample to C9 as stated: publishing to a session the hub knows
nothing about creates a fresh backlog entry holding the chunk (Go `append` on
the nil slice of an absent key), so the state changes and the chunk is kept,
not dropped. -/
theorem publish_no_stream_cex : ¬ claimPublishNoStreamNoop := by
  intro h
  have h1 := h emptyState "s1" "x" rfl rfl rfl
  have h2 : (publishChunk emptyState "s1" "x").accumulatedContent = [("s1", ["x"])] := rfl
  rw [h1] at h2
  exact absurd h2 (by decide)

/-- C9 (amended): publishing a chunk for a session with no subscribers and no
backlog raises no error (the operation is total), reaches no connection, and
leaves every hub map unchanged except the backlog, where a fresh entry holding
only the chunk is created. -/
theorem publish_no_stream_amended (st : ServerState) (sid chunk : String)
    (hsub : mapLookup st.subscribers sid = none)
    (hacc : mapLookup st.accumulatedContent sid = none) :
    (publishChunk st sid chunk).conns = st.conns ∧
    (publishChunk st sid chunk).subscribers = st.subscribers ∧
    (publishChunk st sid chunk).sessions = st.sessions ∧
    (publishChunk st sid chunk).pendingPrompts = st.pendingPrompts ∧
    (publishChunk st sid chunk).activeProcesses = st.activeProcesses ∧
    mapLookup (publishChunk st sid chunk).accumulatedContent sid = some [chunk] := by
  have hred : publishChunk st sid chunk = hubAppendContent st sid chunk := by
    unfold publishChunk hubBroadcast
    have hsub2 : mapLookup (hubAppendContent st sid chunk).subscribers sid = none := hsub
    rw [hsub2]
    rfl
  rw [hred]
  refine ⟨rfl, rfl, rfl, rfl, rfl, ?_⟩
  unfold hubAppendContent
  show mapLookup (mapInsert st.accumulatedContent sid _) sid = _
  rw [mapLookup_mapInsert_self, hacc]
  rfl

/-- Witness for C9 (amended): publishing to a fresh hub creates the backlog
entry `["x"]` for the session. -/
theorem publish_no_stream_amended_witness :
    mapLookup (publishChunk emptyState "s1" "x").accumulatedContent "s1" = some ["x"] :=
  (publish_no_stream_amended emptyState "s1" "x" rfl rfl).2.2.2.2.2

/-! ## Claim C7 — publish fan-out and the drop-on-full policy -/

/-- Delivering to connections not in `ids` does not touch a connection. -/
theorem foldl_send_lookup_not_mem (ids : List Nat) (st : ServerState) (msg : HubMsg)
    (c : Nat) (h : c ∉ ids) :
    mapLookup ((ids.foldl (fun s d => sendJSONConn s d msg) st)).conns c
      = mapLookup st.conns c := by
  induction ids generalizing st with
  | nil => rfl
  | cons d rest ih =>
    simp only [List.mem_cons] at h
    push_neg at h
    rw [List.foldl_cons, ih _ h.2, sendJSONConn_lookup_ne st d msg c (Ne.symm h.1)]

/-- Delivering to a duplicate-free subscriber list appends the message once to
each listed connection. -/
theorem foldl_send_lookup_mem (ids : List Nat) (st : ServerState) (msg : HubMsg)
    (c : Nat) (conn : WSConn) (hnd : ids.Nodup) (hm : c ∈ ids)
    (hc : mapLookup st.conns c = some conn) :
    mapLookup ((ids.foldl (fun s d => sendJSONConn s d msg) st)).conns c
      = some { conn with delivered := conn.delivered ++ [msg] } := by
  induction ids generalizing st with
  | nil => cases hm
  | cons d rest ih =>
    simp only [List.nodup_cons] at hnd
    obtain ⟨hdrest, hndrest⟩ := hnd
    rcases List.mem_cons.mp hm with h1 | h2
    · subst h1
      rw [List.foldl_cons, foldl_send_lookup_not_mem rest _ msg c hdrest]
      exact sendJSONConn_lookup_self st c msg conn hc
    · have hcd : d ≠ c := fun he => hdrest (he ▸ h2)
      rw [List.foldl_cons]
      refine ih _ hndrest h2 ?_
      rw [sendJSONConn_lookup_ne st d msg c hcd]
      exact hc

/-- The claim's drop-on-full delivery policy, formalised from the spec's words
for comparison with the source's `Broadcast`: a subscriber whose bounded send
queue is saturated has the published update dropped for it, its connection
left exactly as it was. -/
def claimDropOnFullPolicy : Prop :=
  ∀ (st : ServerState) (sid chunk : String) (c : Nat) (conn : WSConn),
    mapLookup st.conns c = some conn →
    c ∈ (mapLookup st.subscribers sid).getD [] →
    sendCap ≤ conn.send.length →
    mapLookup (publishChunk st sid chunk).conns c = some conn

/-- A subscriber whose (unused) 256-slot send queue is saturated. -/
def connSaturated : WSConn := { send := List.replicate 256 "", delivered := [] }

/-- A hub with one session and that saturated subscriber. -/
def stDropCex : ServerState :=
  { emptyState with subscribers := [("s1", [1])], conns := [(1, connSaturated)] }

/-- Counterexample to C7 as stated: `Broadcast` writes with a direct
synchronous `SendJSON` — the buffered `send` channel is never consulted — so a
subscriber with a saturated queue still receives the update; nothing is ever
dropped. -/
theorem publish_drop_cex : ¬ claimDropOnFullPolicy := by
  intro h
  have h1 := h stDropCex "s1" "x" 1 connSaturated rfl (by decide)
    (by
      show sendCap ≤ (List.replicate 256 "").length
      rw [List.length_replicate]
      exact Nat.le_refl 256)
  have h2 : mapLookup (publishChunk stDropCex "s1" "x").conns 1
      = some { connSaturated with delivered := [HubMsg.data "x"] } := by
    have hc : mapLookup stDropCex.conns 1 = some connSaturated := rfl
    have := foldl_send_lookup_mem [1] (hubAppendContent stDropCex "s1" "x")
      (HubMsg.data "x") 1 connSaturated (by decide) (by decide) hc
    exact this
  rw [h2] at h1
  have h3 : ({ connSaturated with delivered := [HubMsg.data "x"] } : WSConn).delivered
      = connSaturated.delivered := congrArg WSConn.delivered (Option.some.inj h1)
  exact List.noConfusion h3

/-- C7 (amended): `publish` appends the chunk to the session's backlog and
delivers it unconditionally, with a direct synchronous write, to every current
subscriber of the session — regardless of any subscriber's queue state — and
leaves every connection that is not a subscriber of the session untouched, so
no subscriber's state causes loss for another. -/
theorem publish_fanout (st : ServerState) (sid chunk : String)
    (hnd : ((mapLookup st.subscribers sid).getD []).Nodup) :
    (∀ c conn, c ∈ (mapLookup st.subscribers sid).getD [] →
      mapLookup st.conns c = some conn →
      mapLookup (publishChunk st sid chunk).conns c
        = some { conn with delivered := conn.delivered ++ [HubMsg.data chunk] }) ∧
    (∀ c conn, c ∉ (mapLookup st.subscribers sid).getD [] →
      mapLookup st.conns c = some conn →
      mapLookup (publishChunk st sid chunk).conns c = some conn) ∧
    mapLookup (publishChunk st sid chunk).accumulatedContent sid
      = some ((mapLookup st.accumulatedContent sid).getD [] ++ [chunk]) := by
  refine ⟨?_, ?_, ?_⟩
  · intro c conn hm hc
    exact foldl_send_lookup_mem _ _ _ c conn hnd hm hc
  · intro c conn hm hc
    rw [show publishChunk st sid chunk
        = ((mapLookup st.subscribers sid).getD []).foldl
            (fun s d => sendJSONConn s d (HubMsg.data chunk))
            (hubAppendContent st sid chunk) from rfl]
    rw [foldl_send_lookup_not_mem _ _ _ c hm]
    exact hc
  · obtain ⟨cs, hsh⟩ := hubBroadcast_shape (hubAppendContent st sid chunk) sid
      (HubMsg.data chunk)
    show mapLookup (hubBroadcast (hubAppendContent st sid chunk) sid
      (HubMsg.data chunk)).accumulatedContent sid = _
    rw [hsh]
    show mapLookup (mapInsert st.accumulatedContent sid _) sid = _
    rw [mapLookup_mapInsert_self]

/-- Witness for C7 (amended): two subscribers, one with a saturated queue; both
receive the chunk and the backlog gains it. -/
theorem publish_fanout_witness :
    mapLookup (publishChunk
      { emptyState with
          subscribers := [("s1", [1, 2])]
          conns := [(1, connSaturated), (2, WSConn.mk [] [])] } "s1" "x").conns 2
      = some (WSConn.mk [] [HubMsg.data "x"]) :=
  (publish_fanout
    { emptyState with
        subscribers := [("s1", [1, 2])]
        conns := [(1, connSaturated), (2, WSConn.mk [] [])] } "s1" "x" (by decide)).1
    2 (WSConn.mk [] []) (by decide) (by decide)

/-! ## Claim C3 — mid-run subscriber ordering -/

theorem interleave_nil_left {α : Type} (l : List α) : Interleave [] l l := by
  induction l with
  | nil => exact Interleave.nil
  | cons a rest ih => exact Interleave.right ih

theorem interleave_sublist_left {α : Type} {l1 l2 l : List α} (h : Interleave l1 l2 l) :
    List.Sublist l1 l := by
  induction h with
  | nil => exact List.Sublist.refl []
  | left _ ih => exact List.Sublist.cons₂ _ ih
  | right _ ih => exact List.Sublist.cons _ ih

theorem interleave_sublist_right {α : Type} {l1 l2 l : List α} (h : Interleave l1 l2 l) :
    List.Sublist l2 l := by
  induction h with
  | nil => exact List.Sublist.refl []
  | left _ ih => exact List.Sublist.cons _ ih
  | right _ ih => exact List.Sublist.cons₂ _ ih

theorem interleave_perm {α : Type} {l1 l2 l : List α} (h : Interleave l1 l2 l) :
    List.Perm l (l1 ++ l2) := by
  induction h with
  | nil => exact List.Perm.refl []
  | left _ ih => exact List.Perm.cons _ ih
  | right _ ih => exact (List.Perm.cons _ ih).trans List.perm_middle.symm

/-- Counterexample to C3 as stated: with backlog `["c1"]` captured at subscribe
time and one live chunk `"c2"` broadcast before the fire-and-forget replay
goroutine runs, the subscriber can observe `[c2, c1]`, which is not
prompt-then-backlog-then-live order. -/
theorem midrun_order_cex :
    subscriberObservation "s1" none ["c1"] [HubMsg.data "c2"]
      [HubMsg.data "c2", HubMsg.data "c1"] ∧
    [HubMsg.data "c2", HubMsg.data "c1"]
      ≠ promptMsgs "s1" none ++ ["c1"].map HubMsg.data ++ [HubMsg.data "c2"] := by
  constructor
  · exact ⟨[HubMsg.data "c2", HubMsg.data "c1"],
      Interleave.right (Interleave.left Interleave.nil),
      interleave_nil_left _⟩
  · decide

/-- C3 (amended): a mid-run subscriber observes every message exactly once —
the observation is a permutation of prompt + captured backlog + live chunks —
with the backlog in original publish order relative to itself and the live
chunks in emission order relative to themselves; but the prompt and backlog
replays run as concurrent fire-and-forget goroutines, so their messages may
interleave arbitrarily with live chunks (and each other) rather than strictly
precede them. -/
theorem midrun_subscriber_order (sid : String) (pp : Option String)
    (backlog : List String) (live obs : List HubMsg)
    (h : subscriberObservation sid pp backlog live obs) :
    List.Sublist (backlog.map HubMsg.data) obs ∧
    List.Sublist live obs ∧
    List.Sublist (promptMsgs sid pp) obs ∧
    List.Perm obs (promptMsgs sid pp ++ backlog.map HubMsg.data ++ live) := by
  obtain ⟨t, h1, h2⟩ := h
  refine ⟨(interleave_sublist_left h1).trans (interleave_sublist_right h2),
    (interleave_sublist_right h1).trans (interleave_sublist_right h2),
    interleave_sublist_left h2, ?_⟩
  have hp1 := interleave_perm h1
  have hp2 := interleave_perm h2
  have hstep := hp2.trans (List.Perm.append_left (promptMsgs sid pp) hp1)
  rw [List.append_assoc]
  exact hstep

/-- Witness for C3 (amended) at the counterexample's observation. -/
theorem midrun_subscriber_order_witness :
    List.Perm [HubMsg.data "c2", HubMsg.data "c1"]
      (promptMsgs "s1" none ++ ["c1"].map HubMsg.data ++ [HubMsg.data "c2"]) :=
  (midrun_subscriber_order "s1" none ["c1"] [HubMsg.data "c2"]
    [HubMsg.data "c2", HubMsg.data "c1"]
    ⟨[HubMsg.data "c2", HubMsg.data "c1"],
      Interleave.right (Interleave.left Interleave.nil),
      interleave_nil_left _⟩).2.2.2

end Greyzone
